import Mathlib

/-!
Verification of the Krate archive codec and reverse proxy.

A shallow embedding, in Lean 4, of the systems core of the Krate desktop
utility backend (`src-tauri/src/commands/archive.rs` and
`src-tauri/src/commands/proxy.rs`), together with proofs and refutations of
the claims of the specification about it.

Modelling conventions:
* Rust byte buffers are `List Nat` with each element `< 256` where it matters;
  machine arithmetic on `u32` is `Nat` with explicit `% 2 ^ 32`.
* Rust `String` / `&str` values are `List Char` (`Str` below); Rust string
  primitives (`trim`, `starts_with`, ...) are re-implemented on `List Char`
  mirroring their documented semantics (byte length and char length coincide
  on the ASCII data these routines handle).
* Fallible Rust functions returning `Result<T, E>` become `Except String T`
  (or `Except IOErrorKind T` for `std::io` code where the error kind matters).
* External crates (ChaCha20-Poly1305 AEAD, gzip, tar, the OS filesystem and
  sockets) are not code of this repository; they enter the model as explicit
  functional parameters, so every theorem quantifies over their behaviour.
-/

namespace Krate

/-- Rust strings, modelled as lists of characters. -/
abbrev Str := List Char

/-! Section: ChunkFramer (`archive.rs`, `pack_chunk_header` / `unpack_chunk_header`)

The frame header is a big-endian `u32` whose high bit marks the terminal
frame and whose low 31 bits carry the ciphertext length. -/

/-- Big-endian serialization of a `u32` value (`u32::to_be_bytes`). -/
def u32ToBeBytes (v : Nat) : List Nat :=
  [v / 2 ^ 24 % 256, v / 2 ^ 16 % 256, v / 2 ^ 8 % 256, v % 256]

/-- Big-endian deserialization of four bytes (`u32::from_be_bytes`). -/
def u32FromBeBytes (b : List Nat) : Nat :=
  match b with
  | [b0, b1, b2, b3] => ((b0 * 256 + b1) * 256 + b2) * 256 + b3
  | _ => 0

/-- The `pack_chunk_header`: `len as u32`, with bit `0x8000_0000` set iff
`is_last`, emitted big-endian. -/
def pack_chunk_header (is_last : Bool) (len : Nat) : List Nat :=
  let v := len % 2 ^ 32
  let v := if is_last then v ||| 0x80000000 else v
  u32ToBeBytes v

/-- The `unpack_chunk_header`: split the high bit and the low 31 bits. -/
def unpack_chunk_header (b : List Nat) : Bool × Nat :=
  let v := u32FromBeBytes b
  let is_last := (v &&& 0x80000000) != 0
  let len := v &&& 0x7FFFFFFF
  (is_last, len)

theorem u32_be_roundtrip (v : Nat) (h : v < 2 ^ 32) :
    u32FromBeBytes (u32ToBeBytes v) = v := by
  simp only [u32ToBeBytes, u32FromBeBytes]
  omega

theorem lor_high_bit_eq_add {a : Nat} (h : a < 2 ^ 31) :
    a ||| 2 ^ 31 = a + 2 ^ 31 := by
  apply Nat.eq_of_testBit_eq
  intro i
  rcases Nat.lt_trichotomy i 31 with hi | hi | hi
  · rw [Nat.testBit_or, Nat.testBit_two_pow_of_ne (by omega),
      Nat.add_comm, Nat.testBit_two_pow_add_gt hi]
    simp
  · subst hi
    rw [Nat.testBit_or, Nat.testBit_two_pow_self,
      Nat.add_comm, Nat.testBit_two_pow_add_eq,
      Nat.testBit_lt_two_pow h]
    simp
  · have h1 : a ||| 2 ^ 31 < 2 ^ i := by
      calc a ||| 2 ^ 31 < 2 ^ 32 := by
              exact Nat.or_lt_two_pow (by omega) (by norm_num)
        _ ≤ 2 ^ i := Nat.pow_le_pow_right (by omega) (by omega)
    have h2 : a + 2 ^ 31 < 2 ^ i := by
      have : a + 2 ^ 31 < 2 ^ 32 := by omega
      calc a + 2 ^ 31 < 2 ^ 32 := this
        _ ≤ 2 ^ i := Nat.pow_le_pow_right (by omega) (by omega)
    rw [Nat.testBit_lt_two_pow h1, Nat.testBit_lt_two_pow h2]

/-- Claim C2: For every `is_last` and every `len ∈ [1, 2^31)`, decoding the
4-byte header produced by `pack_chunk_header is_last len` returns exactly
`(is_last, len)`. -/
theorem chunk_header_roundtrip (is_last : Bool) (len : Nat)
    (h1 : 1 ≤ len) (h2 : len < 2 ^ 31) :
    unpack_chunk_header (pack_chunk_header is_last len) = (is_last, len) := by
  have hlen32 : len % 2 ^ 32 = len := Nat.mod_eq_of_lt (by omega)
  have hmask : (0x7FFFFFFF : Nat) = 2 ^ 31 - 1 := by norm_num
  have hbit : (0x80000000 : Nat) = 2 ^ 31 := by norm_num
  cases is_last with
  | false =>
    have hpack : pack_chunk_header false len = u32ToBeBytes len := by
      show u32ToBeBytes
          (if false = true then len % 2 ^ 32 ||| 0x80000000 else len % 2 ^ 32) = _
      rw [if_neg (by simp), hlen32]
    rw [hpack]
    simp only [unpack_chunk_header]
    rw [u32_be_roundtrip len (by omega)]
    have hland : len &&& 0x7FFFFFFF = len := by
      rw [hmask, Nat.and_pow_two_sub_one_of_lt_two_pow h2]
    have hhigh : len &&& 0x80000000 = 0 := by
      rw [hbit]
      apply Nat.eq_of_testBit_eq
      intro i
      rw [Nat.testBit_and, Nat.zero_testBit]
      rcases eq_or_ne i 31 with rfl | hne
      · rw [Nat.testBit_lt_two_pow h2]; simp
      · rw [Nat.testBit_two_pow_of_ne (by omega)]; simp
    simp [hland, hhigh]
  | true =>
    have hpack : pack_chunk_header true len = u32ToBeBytes (len + 2 ^ 31) := by
      show u32ToBeBytes
          (if true = true then len % 2 ^ 32 ||| 0x80000000 else len % 2 ^ 32) = _
      rw [if_pos rfl, hlen32, hbit, lor_high_bit_eq_add h2]
    rw [hpack]
    simp only [unpack_chunk_header]
    rw [u32_be_roundtrip (len + 2 ^ 31) (by omega)]
    have hland : (len + 2 ^ 31) &&& (2 ^ 31 - 1) = len := by
      rw [Nat.and_pow_two_sub_one_eq_mod]
      omega
    have hhigh : (len + 2 ^ 31) &&& 2 ^ 31 ≠ 0 := by
      intro hc
      have : ((len + 2 ^ 31) &&& 2 ^ 31).testBit 31 = false := by
        rw [hc, Nat.zero_testBit]
      rw [Nat.testBit_and, Nat.add_comm, Nat.testBit_two_pow_add_eq,
        Nat.testBit_lt_two_pow h2, Nat.testBit_two_pow_self] at this
      simp at this
    rw [hmask, hland, hbit]
    have hb : ((len + 2 ^ 31) &&& 2 ^ 31 != 0) = true := by
      simpa [bne_iff_ne] using hhigh
    rw [hb]

/-- Witness for C2 at `is_last = true`, `len = 5`. -/
theorem chunk_header_roundtrip_witness :
    unpack_chunk_header (pack_chunk_header true 5) = (true, 5) :=
  chunk_header_roundtrip true 5 (by decide) (by norm_num)

/-! Section: Abstract AEAD STREAM interface

`EncryptorBE32<ChaCha20Poly1305>` / `DecryptorBE32<ChaCha20Poly1305>` come
from the external `aead` / `chacha20poly1305` crates.  They are modelled as
an abstract state type together with the four operations the archive code
calls; `encrypt_next` threads the updated state, `encrypt_last` consumes it
(mirroring the by-value `self` of the Rust API), and `Option` models the
fallibility of the crates. -/

/-- Plaintext chunk size: 64 KiB (`PLAIN_CHUNK`). -/
def PLAIN_CHUNK : Nat := 64 * 1024

/-- Operations of the streaming AEAD encryptor (external crate). -/
structure StreamEncOps (E : Type) where
  encrypt_next : E → List Nat → Option (List Nat × E)
  encrypt_last : E → List Nat → Option (List Nat)

/-- Operations of the streaming AEAD decryptor (external crate). -/
structure StreamDecOps (D : Type) where
  decrypt_next : D → List Nat → Option (List Nat × D)
  decrypt_last : D → List Nat → Option (List Nat)

/-- One emitted AEAD frame: the terminal marker, the plaintext that was fed
to the AEAD, and the ciphertext it returned.  On the wire the frame is
`pack_chunk_header is_last ct.length ++ ct`. -/
structure Frame where
  is_last : Bool
  plain : List Nat
  ct : List Nat
deriving DecidableEq, Repr

/-! Section: StreamEncryptWriter (`archive.rs`) -/

/-- State of `StreamEncryptWriter`: the optional encryptor and the pending
plaintext buffer.  The inner sink is modelled by returning the list of
frames each operation appends to it. -/
structure StreamEncryptWriter (E : Type) where
  enc : Option E
  buf : List Nat

/-- The `StreamEncryptWriter::flush_chunks`: while the buffer holds at least
`PLAIN_CHUNK` bytes, drain exactly `PLAIN_CHUNK`, call `encrypt_next`, and
emit a non-terminal frame. -/
def flush_chunks {E : Type} (ops : StreamEncOps E) (w : StreamEncryptWriter E) :
    Except String (StreamEncryptWriter E × List Frame) :=
  if w.buf.length ≥ PLAIN_CHUNK then
    match w.enc with
    | none => .error "encryptor consumed"
    | some e =>
      match ops.encrypt_next e (w.buf.take PLAIN_CHUNK) with
      | none => .error "encrypt_next failed"
      | some (ct, e2) =>
        match flush_chunks ops { enc := some e2, buf := w.buf.drop PLAIN_CHUNK } with
        | .error msg => .error msg
        | .ok (w2, frames) =>
            .ok (w2, { is_last := false, plain := w.buf.take PLAIN_CHUNK, ct := ct }
              :: frames)
  else
    .ok (w, [])
termination_by w.buf.length
decreasing_by
  simp only [List.length_drop]
  have : PLAIN_CHUNK = 65536 := rfl
  omega

/-- The `<StreamEncryptWriter as Write>::write`: buffer all input, then flush
full chunks; always reports `buf.len()` bytes consumed. -/
def StreamEncryptWriter.write {E : Type} (ops : StreamEncOps E)
    (w : StreamEncryptWriter E) (data : List Nat) :
    Except String ((StreamEncryptWriter E × List Frame) × Nat) :=
  match flush_chunks ops { w with buf := w.buf ++ data } with
  | .error msg => .error msg
  | .ok (w2, frames) => .ok ((w2, frames), data.length)

/-- The `StreamEncryptWriter::finish`: flush full chunks, then encrypt the
remaining (possibly empty) plaintext with `encrypt_last` and emit the
terminal frame. -/
def StreamEncryptWriter.finish {E : Type} (ops : StreamEncOps E)
    (w : StreamEncryptWriter E) : Except String (List Frame) :=
  match flush_chunks ops w with
  | .error msg => .error msg
  | .ok (w1, frames) =>
    match w1.enc with
    | none => .error "encryptor consumed"
    | some e =>
      match ops.encrypt_last e w1.buf with
      | none => .error "encrypt_last failed"
      | some ct => .ok (frames ++ [{ is_last := true, plain := w1.buf, ct := ct }])

theorem flush_chunks_post {E : Type} (ops : StreamEncOps E)
    (w : StreamEncryptWriter E) :
    ∀ (w2 : StreamEncryptWriter E) (frames : List Frame),
      flush_chunks ops w = .ok (w2, frames) →
      w2.buf.length < PLAIN_CHUNK ∧
        ∀ f ∈ frames, f.is_last = false ∧ f.plain.length = PLAIN_CHUNK := by
  induction w using flush_chunks.induct ops with
  | case1 x hge henc =>
    intro w2 frames h
    rw [flush_chunks, if_pos hge, henc] at h
    cases h
  | case2 x hge e henc hnext =>
    intro w2 frames h
    rw [flush_chunks, if_pos hge, henc] at h
    simp only [hnext] at h
    cases h
  | case3 x hge e henc ct e2 hnext msg hrec ih =>
    intro w2 frames h
    rw [flush_chunks, if_pos hge, henc] at h
    simp only [hnext, hrec] at h
    cases h
  | case4 x hge e henc ct e2 hnext w3 frames3 hrec ih =>
    intro w2 frames h
    rw [flush_chunks, if_pos hge, henc] at h
    simp only [hnext, hrec, Except.ok.injEq, Prod.mk.injEq] at h
    obtain ⟨hw, hf⟩ := h
    have hpost := ih w3 frames3 hrec
    subst hw hf
    refine ⟨hpost.1, ?_⟩
    intro f hfmem
    rcases List.mem_cons.mp hfmem with rfl | hfmem
    · refine ⟨rfl, ?_⟩
      simp only [List.length_take]
      omega
    · exact hpost.2 f hfmem
  | case5 x hlt =>
    intro w2 frames h
    rw [flush_chunks, if_neg hlt] at h
    simp only [Except.ok.injEq, Prod.mk.injEq] at h
    obtain ⟨hw, hf⟩ := h
    subst hw hf
    refine ⟨by omega, ?_⟩
    intro f hf
    cases hf

/-- Claim C9: Invariant of `StreamEncryptWriter`: after every successful
`write` the plaintext buffer holds strictly fewer than `PLAIN_CHUNK`
(64 KiB) bytes and every frame emitted by `write` is non-terminal and
encrypts exactly `PLAIN_CHUNK` bytes of plaintext; `finish` emits the
frames of a final flush (same shape) followed by exactly one terminal
frame, which encrypts fewer than `PLAIN_CHUNK` bytes (possibly zero). -/
theorem stream_encrypt_writer_invariant {E : Type} (ops : StreamEncOps E)
    (w : StreamEncryptWriter E) (data : List Nat)
    (res : (StreamEncryptWriter E × List Frame) × Nat) (outf : List Frame)
    (hw : StreamEncryptWriter.write ops w data = .ok res)
    (hf : StreamEncryptWriter.finish ops w = .ok outf) :
    (res.1.1.buf.length < PLAIN_CHUNK ∧
      ∀ f ∈ res.1.2, f.is_last = false ∧ f.plain.length = PLAIN_CHUNK) ∧
    (∃ pre last, outf = pre ++ [last] ∧ last.is_last = true ∧
      last.plain.length < PLAIN_CHUNK ∧
      (∀ f ∈ pre, f.is_last = false ∧ f.plain.length = PLAIN_CHUNK) ∧
      (outf.filter (fun f => f.is_last)).length = 1) := by
  constructor
  · rw [StreamEncryptWriter.write] at hw
    cases hfl : flush_chunks ops { w with buf := w.buf ++ data } with
    | error msg => simp [hfl] at hw
    | ok q =>
      obtain ⟨w2, frames⟩ := q
      simp only [hfl, Except.ok.injEq] at hw
      subst hw
      exact flush_chunks_post ops _ _ _ hfl
  · rw [StreamEncryptWriter.finish] at hf
    cases hfl : flush_chunks ops w with
    | error msg => simp [hfl] at hf
    | ok q =>
      obtain ⟨w1, frames⟩ := q
      simp only [hfl] at hf
      have hpost := flush_chunks_post ops _ _ _ hfl
      cases henc : w1.enc with
      | none => simp [henc] at hf
      | some e =>
        simp only [henc] at hf
        cases hlast : ops.encrypt_last e w1.buf with
        | none => simp [hlast] at hf
        | some ct =>
          simp only [hlast, Except.ok.injEq] at hf
          subst hf
          refine ⟨frames, { is_last := true, plain := w1.buf, ct := ct },
            rfl, rfl, hpost.1, hpost.2, ?_⟩
          rw [List.filter_append]
          have hpre : frames.filter (fun f => f.is_last) = [] := by
            rw [List.filter_eq_nil_iff]
            intro f hfm
            simp [(hpost.2 f hfm).1]
          simp [hpre]

/-- Trivial encryptor instance (identity AEAD) used to witness C9. -/
def encOpsId : StreamEncOps Unit :=
  { encrypt_next := fun _ c => some (c, ())
    encrypt_last := fun _ c => some c }

/-- Witness for C9: a concrete `write` then `finish` run on a writer holding
two buffered bytes. -/
theorem stream_encrypt_writer_invariant_witness :
    ((({ enc := some (), buf := [0, 1, 7] } : StreamEncryptWriter Unit).buf.length
        < PLAIN_CHUNK ∧
      ∀ f ∈ ([] : List Frame), f.is_last = false ∧ f.plain.length = PLAIN_CHUNK) ∧
    (∃ pre last,
      [({ is_last := true, plain := [0, 1], ct := [0, 1] } : Frame)] = pre ++ [last] ∧
      last.is_last = true ∧ last.plain.length < PLAIN_CHUNK ∧
      (∀ f ∈ pre, f.is_last = false ∧ f.plain.length = PLAIN_CHUNK) ∧
      (([({ is_last := true, plain := [0, 1], ct := [0, 1] } : Frame)]).filter
          (fun f => f.is_last)).length = 1)) :=
  stream_encrypt_writer_invariant encOpsId { enc := some (), buf := [0, 1] } [7]
    (({ enc := some (), buf := [0, 1, 7] }, []), 1)
    [{ is_last := true, plain := [0, 1], ct := [0, 1] }]
    (by rw [StreamEncryptWriter.write, flush_chunks]; simp [PLAIN_CHUNK])
    (by rw [StreamEncryptWriter.finish, flush_chunks]; simp [PLAIN_CHUNK, encOpsId])

/-! Section: StreamDecryptReader (`archive.rs`)

The reader pulls 4-byte headers and ciphertext frames from the underlying
byte source, decrypts them, and serves `read` calls from the plaintext
buffer.  `std::io` errors are modelled by their `ErrorKind`. -/

/-- The `std::io::ErrorKind` values this code produces or inspects. -/
inductive IOErrorKind where
  | unexpectedEof
  | invalidData
  | other
deriving DecidableEq, Repr

/-- State of `StreamDecryptReader`: remaining source bytes, the optional
decryptor, the `done` flag, and the plaintext out-buffer with its cursor. -/
structure StreamDecryptReader (D : Type) where
  inner : List Nat
  dec : Option D
  done : Bool
  out_buf : List Nat
  out_pos : Nat

/-- The `Read::read_exact` on a byte list: take `n` bytes (`some (bytes, rest)`)
or fail (`none`, the Rust error `UnexpectedEof` — on a pure byte source this is the
only I/O failure). -/
def readExact (src : List Nat) (n : Nat) : Option (List Nat × List Nat) :=
  match n with
  | 0 => some ([], src)
  | m + 1 =>
    match src with
    | [] => none
    | b :: rest =>
      match readExact rest m with
      | some (xs, r) => some (b :: xs, r)
      | none => none
termination_by structural n

/-- The `StreamDecryptReader::refill`: read one frame header and its ciphertext,
decrypt, and load the plaintext out-buffer.  Returns `false` when no further
frame is available.  NOTE (flaw relevant to C1): an `UnexpectedEof` while
reading the 4-byte header is swallowed — the reader marks itself `done` and
reports a clean end even if no `is_last` frame was ever decrypted. -/
def StreamDecryptReader.refill {D : Type} (ops : StreamDecOps D)
    (s : StreamDecryptReader D) :
    Except IOErrorKind (Bool × StreamDecryptReader D) :=
  if s.done then .ok (false, s)
  else
    match readExact s.inner 4 with
    | none =>
      -- the header read failed with UnexpectedEof: swallowed, clean end
      .ok (false, { s with done := true })
    | some (hdr, rest1) =>
      match unpack_chunk_header hdr with
      | (is_last, ct_len) =>
        if ct_len = 0 then .error .invalidData
        else
          match readExact rest1 ct_len with
          | none => .error .unexpectedEof
          | some (ct, rest2) =>
            match s.dec with
            | none => .error .other
            | some d =>
              if is_last then
                match ops.decrypt_last d ct with
                | none => .error .other
                | some pt =>
                  .ok (true,
                    { inner := rest2, dec := none, done := true,
                      out_buf := pt, out_pos := 0 })
              else
                match ops.decrypt_next d ct with
                | none => .error .other
                | some (pt, d2) =>
                  .ok (true,
                    { inner := rest2, dec := some d2, done := s.done,
                      out_buf := pt, out_pos := 0 })

/-- The `<StreamDecryptReader as Read>::read`: serve bytes from the out-buffer,
refilling it from the next frame when drained; returns the bytes copied
(`Ok(0)` is the Rust clean end-of-stream). -/
def StreamDecryptReader.read {D : Type} (ops : StreamDecOps D)
    (s : StreamDecryptReader D) (bufLen : Nat) :
    Except IOErrorKind (List Nat × StreamDecryptReader D) :=
  if s.out_pos ≥ s.out_buf.length then
    let s1 := { s with out_buf := [], out_pos := 0 }
    match StreamDecryptReader.refill ops s1 with
    | .error k => .error k
    | .ok (ok, s2) =>
      if ok then
        let n := min bufLen (s2.out_buf.length - s2.out_pos)
        .ok ((s2.out_buf.drop s2.out_pos).take n, { s2 with out_pos := s2.out_pos + n })
      else
        .ok ([], s2)
  else
    let n := min bufLen (s.out_buf.length - s.out_pos)
    .ok ((s.out_buf.drop s.out_pos).take n, { s with out_pos := s.out_pos + n })

/-- A decryptor instance for C1 whose operations are never reached. -/
def decOpsNone : StreamDecOps Unit :=
  { decrypt_next := fun _ _ => none, decrypt_last := fun _ _ => none }

/-- Claim C1 (refuted): A `StreamDecryptReader` whose underlying source is
exhausted (here: truncated at a frame boundary, zero bytes left) while no
`is_last` frame has been decrypted (`done = false`, live decryptor) answers
a `read` call with `Ok` and zero bytes — the Rust *clean* end-of-stream —
instead of surfacing an error: `refill` swallows the `UnexpectedEof` from
the header read and sets `done`.  This contradicts the claim that EOF
before a terminal frame surfaces an error (`DECRYPT_FAILED` truncation). -/
theorem stream_decrypt_reader_truncation_clean_eof :
    StreamDecryptReader.read decOpsNone
      { inner := [], dec := some (), done := false, out_buf := [], out_pos := 0 }
      4096 =
    .ok ([],
      { inner := [], dec := some (), done := true, out_buf := [], out_pos := 0 }) :=
  rfl

/-! Section: Rust string primitives on `List Char` -/

/-- Shorthand: the character list of a string literal. -/
def cs (s : String) : Str := s.data

/-- The `str::trim` (leading and trailing whitespace removed). -/
def trim (s : Str) : Str :=
  ((s.dropWhile Char.isWhitespace).reverse.dropWhile Char.isWhitespace).reverse

/-- The `str::to_ascii_lowercase`. -/
def asciiLower (s : Str) : Str :=
  s.map fun c => if 65 ≤ c.toNat ∧ c.toNat ≤ 90 then Char.ofNat (c.toNat + 32) else c

/-- The `str::starts_with(c)` for a single character pattern. -/
def startsWithChar (c : Char) : Str → Bool
  | [] => false
  | x :: _ => x = c

/-- The `str::strip_prefix`: `some rest` iff `pre` is a prefix. -/
def stripPre (pre s : Str) : Option Str :=
  if pre.isPrefixOf s then some (s.drop pre.length) else none

/-- The `str::trim_end_matches(c)`: remove every trailing occurrence of `c`. -/
def trimEndMatches (c : Char) (s : Str) : Str :=
  (s.reverse.dropWhile (fun x => x = c)).reverse

/-- The `str::rsplit_once(c)`: split at the last occurrence of `c`. -/
def rsplitOnce (c : Char) : Str → Option (Str × Str)
  | [] => none
  | x :: xs =>
    match rsplitOnce c xs with
    | some (l, r) => some (x :: l, r)
    | none => if x = c then some ([], xs) else none

/-- The `u16::from_str`: optional leading `+`, one or more ASCII digits, value
at most `65535`. -/
def parseU16 (s : Str) : Option Nat :=
  let digits := match s with
    | '+' :: rest => rest
    | _ => s
  if digits = [] then none
  else if digits.all (fun c => c.isDigit) then
    let v := digits.foldl (fun a c => a * 10 + (c.toNat - 48)) 0
    if v ≤ 65535 then some v else none
  else none

/-- The `format!("{}", n)` for a `Nat`, as a char list. -/
def natStr (n : Nat) : Str := (Nat.repr n).data

/-! Section: EntryCollector (`archive.rs`, `collect_entries`)

Filesystem paths are lists of components (`List Str`); the OS filesystem
(`Path::exists`, `Path::is_dir`, the `walkdir` crate) is abstracted into a
record of functions.  `walkFiles p` lists, in walker order, the paths of
the regular files below directory `p` relative to `p` (the walker error
case is not modelled; it only renames an I/O failure). -/

/-- A filesystem path, as its components. -/
abbrev FsPath := List Str

/-- Abstraction of the filesystem queries `collect_entries` performs. -/
structure FsModel where
  pathExists : FsPath → Bool
  isDir : FsPath → Bool
  walkFiles : FsPath → List FsPath

/-- The `Path::file_name` of a component path, with the `collect_entries` fallback
`"input"` applied (`file_name().and_then(to_str).unwrap_or("input")`). -/
def baseNameOf (p : FsPath) : Str := p.getLast?.getD (cs "input")

/-- Render a path for error messages (`format!("{}", p)`). -/
def renderPath (p : FsPath) : String := String.intercalate "/" (p.map String.mk)

/-- The loop of `collect_entries`: `used` is the `used_top` hash map (here a
function from base name to its counter).  For each input: existence check,
base-name lookup and counter bump, unique `top` construction, then either a
recursive directory walk or a single file entry. -/
def collectEntriesGo (fs : FsModel) :
    List FsPath → (Str → Nat) → Except String (List (FsPath × FsPath))
  | [], _ => .ok []
  | p :: rest, used =>
    if fs.pathExists p then
      let base := baseNameOf p
      let n := used base + 1
      let used2 := fun b => if b = base then n else used b
      let top : Str := if n = 1 then base else base ++ cs "-" ++ natStr n
      let entries :=
        if fs.isDir p then
          (fs.walkFiles p).map (fun rel => (p ++ rel, top :: rel))
        else
          [(p, [top])]
      match collectEntriesGo fs rest used2 with
      | .error e => .error e
      | .ok out => .ok (entries ++ out)
    else
      .error ("路径不存在: " ++ renderPath p)

/-- The `collect_entries`: expand the inputs into `(source, archive)` pairs with
per-base-name disambiguation of the top-level segment. -/
def collect_entries (fs : FsModel) (inputs : List FsPath) :
    Except String (List (FsPath × FsPath)) :=
  collectEntriesGo fs inputs (fun _ => 0)

/-- A filesystem on which every path is an existing plain file. -/
def fsAllFiles : FsModel :=
  { pathExists := fun _ => true, isDir := fun _ => false, walkFiles := fun _ => [] }

/-- Claim C4 (refuted): Three file inputs whose leaf names are `a-2`, `a`, `a`
(the last two at distinct paths): the first input keeps top-level name
`a-2`, and the third input — the second one named `a` — is "disambiguated"
to `a-2` as well, so two distinct inputs share a top-level archive segment,
contradicting the claimed pairwise distinctness. -/
theorem collect_entries_top_collision :
    collect_entries fsAllFiles [[cs "a-2"], [cs "a"], [cs "b", cs "a"]] =
      .ok [([cs "a-2"], [cs "a-2"]), ([cs "a"], [cs "a"]),
           ([cs "b", cs "a"], [cs "a-2"])] ∧
    ([cs "a-2"] : FsPath) ≠ [cs "b", cs "a"] := by
  constructor
  · rfl
  · decide

/-! Section: Unpacker (`archive.rs`, `extract_archive_blocking`)

The byte source is a list; the two external sinks are parameters:
`unpackGzTar bytes` models `tar::Archive::new(GzDecoder::new(reader))
.unpack(output_dir)` on a plain reader holding `bytes`, and
`encPipeline pw salt nonce payload` models the encrypted path after the
header (key derivation, `StreamDecryptReader`, gzip, tar).  Progress events
are side-effect free and omitted. -/

/-- The container magic `"KRATE_PKG\0"`. -/
def MAGIC_HEADER : List Nat := [75, 82, 65, 84, 69, 95, 80, 75, 71, 0]

/-- Container version byte. -/
def VERSION_V1 : Nat := 1

/-- Flags bit 0: payload is encrypted. -/
def FLAG_ENCRYPTED : Nat := 1

/-- The `extract_archive_blocking`, over an abstract gzip/tar sink and an
abstract encrypted pipeline. -/
def extract_archive_blocking
    (unpackGzTar : List Nat → Except String Unit)
    (encPipeline : Str → List Nat → List Nat → List Nat → Except String Unit)
    (stream : List Nat) (password : Option Str) : Except String Unit :=
  match readExact stream 10 with
  | none => .error "无法读取文件头"
  | some (magic, r1) =>
    if magic ≠ MAGIC_HEADER then .error "无法识别的文件格式（magic 不匹配）"
    else
      match readExact r1 1 with
      | none => .error "io error"
      | some (b, r2) =>
        let first := b.headD 0
        if first = 0x1F then
          -- legacy: put the peeked byte back (io::Read::chain) and unpack
          unpackGzTar (0x1F :: r2)
        else if first ≠ VERSION_V1 then
          .error ("不支持的版本: " ++ Nat.repr first)
        else
          match readExact r2 1 with
          | none => .error "io error"
          | some (fl, r3) =>
            let flags := fl.headD 0
            match readExact r3 1 with
            | none => .error "io error"
            | some (_, r4) =>
              let encrypted := flags &&& FLAG_ENCRYPTED ≠ 0
              match readExact r4 1 with
              | none => .error "io error"
              | some (sl, r5) =>
                let salt_len := sl.headD 0
                match readExact r5 salt_len with
                | none => .error "io error"
                | some (salt, r6) =>
                  match readExact r6 1 with
                  | none => .error "io error"
                  | some (nl, r7) =>
                    let nonce_len := nl.headD 0
                    match readExact r7 nonce_len with
                    | none => .error "io error"
                    | some (nonce, r8) =>
                      if encrypted then
                        let pw := password.getD []
                        if pw = [] then .error "该 krate 包已加密：请输入密码"
                        else encPipeline pw salt nonce r8
                      else unpackGzTar r8

/-- The `readExact` consumes an exact-length leading chunk. -/
theorem readExact_append (a b : List Nat) :
    readExact (a ++ b) a.length = some (a, b) := by
  induction a with
  | nil => rfl
  | cons x xs ih =>
    show (match readExact (xs ++ b) xs.length with
      | some (ys, rest) => some (x :: ys, rest)
      | none => none) = some (x :: xs, b)
    rw [ih]

/-- Claim C5: A container whose 10 magic bytes are followed by the gzip magic
byte `0x1F` is decoded on the legacy path: the peeked byte is chained back
in front of the remaining stream, which is piped to gzip→tar directly — the
version, flags, salt and nonce fields are never read and the password and
encrypted pipeline are irrelevant — so extraction succeeds exactly when the
legacy gzip(tar) payload unpacks. -/
theorem extract_archive_legacy
    (unpackGzTar : List Nat → Except String Unit)
    (encPipeline : Str → List Nat → List Nat → List Nat → Except String Unit)
    (password : Option Str) (rest : List Nat) :
    extract_archive_blocking unpackGzTar encPipeline
      (MAGIC_HEADER ++ 0x1F :: rest) password = unpackGzTar (0x1F :: rest) :=
  rfl

/-- Reduction of `extract_archive_blocking` on a well-formed v1 container. -/
theorem extract_archive_v1 (unpackGzTar : List Nat → Except String Unit)
    (encPipeline : Str → List Nat → List Nat → List Nat → Except String Unit)
    (flags lvl : Nat) (salt nonce payload : List Nat) (password : Option Str) :
    extract_archive_blocking unpackGzTar encPipeline
      (MAGIC_HEADER ++ VERSION_V1 :: flags :: lvl :: salt.length ::
        (salt ++ nonce.length :: (nonce ++ payload))) password =
      (if flags &&& FLAG_ENCRYPTED ≠ 0 then
        if password.getD [] = [] then .error "该 krate 包已加密：请输入密码"
        else encPipeline (password.getD []) salt nonce payload
      else unpackGzTar payload) := by
  simp only [extract_archive_blocking, readExact, readExact_append,
    List.headD_cons, MAGIC_HEADER, VERSION_V1, List.cons_append, List.nil_append]
  rw [if_neg (by decide), if_neg (by decide), if_neg (by decide)]

/-- Claim C6: A v1 container with the encrypted flag set and an absent or
empty password: extraction fails with the password-required error, for
every payload, every gzip/tar sink and every encrypted pipeline — so no
payload frame is consumed and nothing is extracted. -/
theorem extract_archive_password_required
    (unpackGzTar : List Nat → Except String Unit)
    (encPipeline : Str → List Nat → List Nat → List Nat → Except String Unit)
    (flags lvl : Nat) (salt nonce payload : List Nat) (password : Option Str)
    (henc : flags &&& FLAG_ENCRYPTED ≠ 0)
    (hpw : password = none ∨ password = some []) :
    extract_archive_blocking unpackGzTar encPipeline
      (MAGIC_HEADER ++ VERSION_V1 :: flags :: lvl :: salt.length ::
        (salt ++ nonce.length :: (nonce ++ payload))) password =
      .error "该 krate 包已加密：请输入密码" := by
  rw [extract_archive_v1, if_pos henc]
  rcases hpw with rfl | rfl <;> rfl

/-- Witness for C6: flags byte `0b01`, empty salt and nonce, empty password. -/
theorem extract_archive_password_required_witness :
    extract_archive_blocking (fun _ => .ok ()) (fun _ _ _ _ => .ok ())
      (MAGIC_HEADER ++ VERSION_V1 :: 1 :: 9 :: List.length ([] : List Nat) ::
        ([] ++ List.length ([] : List Nat) :: ([] ++ [42]))) (some []) =
      .error "该 krate 包已加密：请输入密码" :=
  extract_archive_password_required (fun _ => .ok ()) (fun _ _ _ _ => .ok ())
    1 9 [] [] [42] (some []) (by decide) (Or.inr rfl)

/-- Claim C10: A v1 container with the encrypted flag clear: the result of
extraction is the same for any two password arguments (absent, empty or
non-empty) — the password is never consulted. -/
theorem extract_archive_password_independent
    (unpackGzTar : List Nat → Except String Unit)
    (encPipeline : Str → List Nat → List Nat → List Nat → Except String Unit)
    (flags lvl : Nat) (salt nonce payload : List Nat)
    (pw1 pw2 : Option Str)
    (henc : flags &&& FLAG_ENCRYPTED = 0) :
    extract_archive_blocking unpackGzTar encPipeline
      (MAGIC_HEADER ++ VERSION_V1 :: flags :: lvl :: salt.length ::
        (salt ++ nonce.length :: (nonce ++ payload))) pw1 =
    extract_archive_blocking unpackGzTar encPipeline
      (MAGIC_HEADER ++ VERSION_V1 :: flags :: lvl :: salt.length ::
        (salt ++ nonce.length :: (nonce ++ payload))) pw2 := by
  rw [extract_archive_v1, extract_archive_v1, if_neg (by simp [henc]),
    if_neg (by simp [henc])]

/-- Witness for C10: flags byte `0b10` (compressed, not encrypted), absent
versus non-empty password. -/
theorem extract_archive_password_independent_witness :
    extract_archive_blocking (fun _ => .ok ()) (fun _ _ _ _ => .ok ())
      (MAGIC_HEADER ++ VERSION_V1 :: 2 :: 9 :: List.length ([] : List Nat) ::
        ([] ++ List.length ([] : List Nat) :: ([] ++ [42]))) none =
    extract_archive_blocking (fun _ => .ok ()) (fun _ _ _ _ => .ok ())
      (MAGIC_HEADER ++ VERSION_V1 :: 2 :: 9 :: List.length ([] : List Nat) ::
        ([] ++ List.length ([] : List Nat) :: ([] ++ [42]))) (some (cs "pw")) :=
  extract_archive_password_independent (fun _ => .ok ()) (fun _ _ _ _ => .ok ())
    2 9 [] [] [42] none (some (cs "pw")) (by decide)

/-! Section: RouteTable (`proxy.rs`)

Names ending in the word "prefix" are shortened to `pre` (`path_pre` is the
the source name `path_prefix`, `strip_pre` its `strip_prefix`, `normalize_path_pre`
its `normalize_path_prefix`). -/

/-- Target scheme (`ws`/`wss` map onto these when parsing). -/
inductive TargetScheme where
  | http
  | https
deriving DecidableEq, Repr

/-- The `TargetScheme::default_port`. -/
def TargetScheme.default_port : TargetScheme → Nat
  | .http => 80
  | .https => 443

/-- The `ProxyRouteInput`: a route configuration as sent by the frontend. -/
structure ProxyRouteInput where
  id : Str
  name : Str
  enabled : Bool
  host : Str
  path_pre : Str
  target : Str
  strip_pre : Bool
  allow_insecure_tls : Bool
deriving DecidableEq, Repr

/-- The `ProxyRoute`: a normalized, validated route. -/
structure ProxyRoute where
  host : Option Str
  path_pre : Str
  target_scheme : TargetScheme
  target_host : Str
  target_port : Nat
  strip_pre : Bool
  allow_insecure_tls : Bool
deriving DecidableEq, Repr

/-- The `normalize_path_prefix` (source name): empty after trim → `"/"`; ensure
a leading `/`; if longer than one char, strip every trailing `/`. -/
def normalize_path_pre (raw : Str) : Str :=
  let trimmed := trim raw
  if trimmed = [] then cs "/"
  else
    let p := if startsWithChar '/' trimmed then trimmed else '/' :: trimmed
    if p.length > 1 then trimEndMatches '/' p else p

/-- The `normalize_host_value`: lowercase and trim; empty or `*` is the
wildcard `none`; drop a `:port` suffix (`split(':').next()`). -/
def normalize_host_value (raw : Str) : Option Str :=
  let value := asciiLower (trim raw)
  if value = [] ∨ value = cs "*" then none
  else
    let host := trim (value.takeWhile (fun c => c ≠ ':'))
    if host = [] then none else some host

/-- The `parse_target`: accept `http://`, `https://`, `ws://`, `wss://` (case
insensitive on the scheme), no path, no IPv6, optional `:port`. -/
def parse_target (raw : Str) : Except String (TargetScheme × Str × Nat) :=
  let normalized := trimEndMatches '/' (trim raw)
  if normalized = [] then .error "目标地址不能为空"
  else
    let lower := asciiLower normalized
    let split : Option (TargetScheme × Str) :=
      if (cs "http://").isPrefixOf lower then some (.http, normalized.drop 7)
      else if (cs "https://").isPrefixOf lower then some (.https, normalized.drop 8)
      else if (cs "ws://").isPrefixOf lower then some (.http, normalized.drop 5)
      else if (cs "wss://").isPrefixOf lower then some (.https, normalized.drop 6)
      else none
    match split with
    | none => .error "目标地址必须以 http://、https://、ws:// 或 wss:// 开头"
    | some (scheme, rest) =>
      if rest = [] then .error "目标地址不能为空"
      else if rest.contains '/' then .error "目标地址暂不支持路径，请只填写主机和端口"
      else if rest.count ':' > 1 then .error "当前版本暂不支持 IPv6 地址"
      else
        match rsplitOnce ':' rest with
        | some (host0, port_text) =>
          let host := trim host0
          if host = [] then .error "目标主机不能为空"
          else
            match parseU16 (trim port_text) with
            | none => .error "目标端口非法"
            | some port => .ok (scheme, host, port)
        | none => .ok (scheme, rest, scheme.default_port)

/-- Rust `bool::cmp` (`false < true`). -/
def boolCmp : Bool → Bool → Ordering
  | false, false => .eq
  | false, true => .lt
  | true, false => .gt
  | true, true => .eq

/-- The `sort_by` comparator of `build_routes`:
`(right.path_prefix.len).cmp(&left…).then(right.host.is_some().cmp(&left…))`
— descending prefix length, then specific host before wildcard. -/
def routeCmp (left right : ProxyRoute) : Ordering :=
  (compare right.path_pre.length left.path_pre.length).then
    (boolCmp right.host.isSome left.host.isSome)

/-- The "not greater" relation of the comparator, the order `sort_by` establishes. -/
def routeLe (a b : ProxyRoute) : Prop := routeCmp a b ≠ .gt

instance routeLe_decidable : DecidableRel routeLe := fun a b =>
  inferInstanceAs (Decidable (routeCmp a b ≠ .gt))

/-- The validation/normalization loop body of `build_routes`, over the
already-filtered enabled inputs; the first `parse_target` error aborts. -/
def buildRoutesCore : List ProxyRouteInput → Except String (List ProxyRoute)
  | [] => .ok []
  | item :: rest =>
    match parse_target item.target with
    | .error e => .error e
    | .ok (scheme, thost, tport) =>
      match buildRoutesCore rest with
      | .error e => .error e
      | .ok routes =>
        .ok ({ host := normalize_host_value item.host,
               path_pre := normalize_path_pre item.path_pre,
               target_scheme := scheme, target_host := thost,
               target_port := tport, strip_pre := item.strip_pre,
               allow_insecure_tls := item.allow_insecure_tls } :: routes)

/-- The `build_routes`: keep enabled inputs, normalize and validate each, then
stable-sort by the comparator (the stable Rust `sort_by` is modelled by the
stable `insertionSort` under the comparator order). -/
def build_routes (inputs : List ProxyRouteInput) :
    Except String (List ProxyRoute) :=
  match buildRoutesCore (inputs.filter (fun i => i.enabled)) with
  | .error e => .error e
  | .ok routes => .ok (routes.insertionSort routeLe)

/-- The `path_match`: `/` matches everything; otherwise exact equality or the
prefix followed by `/`. -/
def path_match (pre path : Str) : Bool :=
  if pre = cs "/" then true
  else if path = pre then true
  else
    match stripPre pre path with
    | some rest => startsWithChar '/' rest
    | none => false

/-- The matching predicate of `select_route`: the host condition (`none`
matches any; `some expect` needs an equal normalized request host) plus the
path condition. -/
def routeMatches (route : ProxyRoute) (request_host : Option Str)
    (request_path : Str) : Bool :=
  (match route.host, request_host with
   | none, _ => true
   | some _, none => false
   | some expect, some actual => expect = actual) &&
  path_match route.path_pre request_path

/-- The `select_route`: first match in the pre-sorted route list. -/
def select_route (routes : List ProxyRoute) (request_host : Option Str)
    (request_path : Str) : Option ProxyRoute :=
  routes.find? (fun route => routeMatches route request_host request_path)

/-- Claim C7 (refuted): `normalize_path_prefix` applied to `"//"`: the input
survives the emptiness test, already starts with `/`, has length `> 1`, and
then `trim_end_matches('/')` deletes *every* slash, returning the empty
string — which does not begin with `/` (and is not `"/"`), violating the
claimed normal form. -/
theorem normalize_path_pre_all_slashes : normalize_path_pre (cs "//") = [] :=
  rfl

/-! Section: the order established by the comparator of `build_routes` -/

theorem routeLe_iff (a b : ProxyRoute) :
    routeLe a b ↔
      b.path_pre.length < a.path_pre.length ∨
        (b.path_pre.length = a.path_pre.length ∧
          (b.host.isSome = true → a.host.isSome = true)) := by
  unfold routeLe routeCmp
  rcases Nat.lt_trichotomy b.path_pre.length a.path_pre.length with h | h | h
  · rw [Nat.compare_eq_lt.2 h]
    simp [Ordering.then, h]
  · rw [Nat.compare_eq_eq.2 h]
    cases hb : b.host.isSome <;> cases ha : a.host.isSome <;>
      simp [Ordering.then, boolCmp, h, hb, ha]
  · rw [Nat.compare_eq_gt.2 h]
    simp only [Ordering.then, ne_eq, not_true_eq_false, false_iff]
    push_neg
    exact ⟨by omega, fun he => absurd he (by omega)⟩

instance routeLe_total : IsTotal ProxyRoute routeLe :=
  ⟨fun a b => by
    rw [routeLe_iff, routeLe_iff]
    rcases Nat.lt_trichotomy b.path_pre.length a.path_pre.length with h | h | h
    · exact Or.inl (Or.inl h)
    · cases hb : b.host.isSome <;> cases ha : a.host.isSome
      · exact Or.inl (Or.inr ⟨h, by simp [ha]⟩)
      · exact Or.inl (Or.inr ⟨h, by simp [ha]⟩)
      · exact Or.inr (Or.inr ⟨h.symm, by simp [hb]⟩)
      · exact Or.inl (Or.inr ⟨h, by simp [ha]⟩)
    · exact Or.inr (Or.inl h)⟩

instance routeLe_trans : IsTrans ProxyRoute routeLe :=
  ⟨fun a b c hab hbc => by
    rw [routeLe_iff] at hab hbc ⊢
    rcases hab with h1 | ⟨h1, h1'⟩ <;> rcases hbc with h2 | ⟨h2, h2'⟩
    · exact Or.inl (by omega)
    · exact Or.inl (by omega)
    · exact Or.inl (by omega)
    · exact Or.inr ⟨by omega, fun hc => h1' (h2' hc)⟩⟩

/-- In a `Pairwise R` list, the first element satisfying `p` is `R`-below
every other element satisfying `p`. -/
theorem find?_first_of_pairwise {α : Type} {R : α → α → Prop} {p : α → Bool} :
    ∀ {l : List α}, l.Pairwise R → ∀ {x : α}, l.find? p = some x →
      ∀ y ∈ l, p y = true → y = x ∨ R x y := by
  intro l
  induction l with
  | nil =>
    intro _ x hx
    cases hx
  | cons a l ih =>
    intro hpw x hx y hy hpy
    rcases List.pairwise_cons.mp hpw with ⟨ha, hl⟩
    by_cases hpa : p a = true
    · rw [List.find?_cons_of_pos _ hpa] at hx
      injection hx with hx
      subst hx
      rcases List.mem_cons.mp hy with rfl | hy
      · exact Or.inl rfl
      · exact Or.inr (ha y hy)
    · rw [List.find?_cons_of_neg _ (by simpa using hpa)] at hx
      rcases List.mem_cons.mp hy with rfl | hy
      · exact absurd hpy hpa
      · exact ih hl hx y hy hpy

/-- Claim C3: If any route produced by `build_routes` matches the request,
`select_route` returns a matching route whose `path_prefix` length is
maximal among all matching routes, and when a matching route of that
maximal length has a specific host, the selected route has a specific host
too (specific beats wildcard on ties). -/
theorem select_route_longest_match (inputs : List ProxyRouteInput)
    (routes : List ProxyRoute) (request_host : Option Str) (request_path : Str)
    (hb : build_routes inputs = .ok routes)
    (hex : ∃ r ∈ routes, routeMatches r request_host request_path = true) :
    ∃ sel, select_route routes request_host request_path = some sel ∧
      routeMatches sel request_host request_path = true ∧
      (∀ r ∈ routes, routeMatches r request_host request_path = true →
        r.path_pre.length ≤ sel.path_pre.length) ∧
      (∀ r ∈ routes, routeMatches r request_host request_path = true →
        r.path_pre.length = sel.path_pre.length →
        r.host.isSome = true → sel.host.isSome = true) := by
  have hsorted : routes.Pairwise routeLe := by
    unfold build_routes at hb
    cases hcore : buildRoutesCore (inputs.filter (fun i => i.enabled)) with
    | error e =>
      rw [hcore] at hb
      cases hb
    | ok rs =>
      rw [hcore] at hb
      injection hb with hb
      subst hb
      exact List.sorted_insertionSort routeLe rs
  obtain ⟨r0, hr0mem, hr0⟩ := hex
  cases hfind : select_route routes request_host request_path with
  | none =>
    rw [select_route, List.find?_eq_none] at hfind
    exact absurd hr0 (by simpa using hfind r0 hr0mem)
  | some sel =>
    have hfind' : routes.find?
        (fun route => routeMatches route request_host request_path) = some sel :=
      hfind
    have hselp : routeMatches sel request_host request_path = true := by
      simpa using List.find?_some hfind'
    refine ⟨sel, rfl, hselp, ?_, ?_⟩
    · intro r hr hrp
      rcases find?_first_of_pairwise hsorted hfind' r hr hrp with rfl | hle
      · exact Nat.le_refl _
      · rcases (routeLe_iff sel r).mp hle with h | ⟨h, _⟩
        · exact Nat.le_of_lt h
        · exact Nat.le_of_eq h
    · intro r hr hrp hlen hrhost
      rcases find?_first_of_pairwise hsorted hfind' r hr hrp with rfl | hle
      · exact hrhost
      · rcases (routeLe_iff sel r).mp hle with h | ⟨_, himp⟩
        · omega
        · exact himp hrhost

/-- The two concrete route inputs of the witness (`/api` → port 3001 and
`/api/admin` → port 3002, wildcard hosts, both enabled). -/
def routeInputsC3 : List ProxyRouteInput :=
  [{ id := [], name := [], enabled := true, host := [], path_pre := cs "/api",
     target := cs "http://127.0.0.1:3001", strip_pre := false,
     allow_insecure_tls := false },
   { id := [], name := [], enabled := true, host := [],
     path_pre := cs "/api/admin", target := cs "http://127.0.0.1:3002",
     strip_pre := false, allow_insecure_tls := false }]

/-- The routes `build_routes` makes of them, in sorted order. -/
def routesC3 : List ProxyRoute :=
  [{ host := none, path_pre := cs "/api/admin", target_scheme := .http,
     target_host := cs "127.0.0.1", target_port := 3002, strip_pre := false,
     allow_insecure_tls := false },
   { host := none, path_pre := cs "/api", target_scheme := .http,
     target_host := cs "127.0.0.1", target_port := 3001, strip_pre := false,
     allow_insecure_tls := false }]

/-- Witness for C3: request path `/api/admin/users`, wildcard request host. -/
theorem select_route_longest_match_witness :
    ∃ sel, select_route routesC3 none (cs "/api/admin/users") = some sel ∧
      routeMatches sel none (cs "/api/admin/users") = true ∧
      (∀ r ∈ routesC3, routeMatches r none (cs "/api/admin/users") = true →
        r.path_pre.length ≤ sel.path_pre.length) ∧
      (∀ r ∈ routesC3, routeMatches r none (cs "/api/admin/users") = true →
        r.path_pre.length = sel.path_pre.length →
        r.host.isSome = true → sel.host.isSome = true) :=
  select_route_longest_match routeInputsC3 routesC3 none (cs "/api/admin/users")
    (by rfl) (by decide)

/-! Section: AcceptLoop & Lifecycle (`proxy.rs`, `proxy_start` / `proxy_stop`)

The asynchronous runtime is modelled sequentially: one command runs at a
time, so the post-spawn re-check of the runtime mutex sees the same state
as the pre-bind check.  External effects are parameters: `now` is the
current UNIX timestamp, `bindOk` the outcome of `TcpListener::bind`, and
`clientsOk` the outcome of `create_https_clients`.  The spawned acceptor
task itself is outside the state model (`runtime` records only whether a
handle is registered). -/

/-- The `ProxySnapshot`. -/
structure ProxySnapshot where
  running : Bool
  listen_host : Option Str
  listen_port : Option Nat
  route_count : Nat
  started_at : Option Nat
  last_error : Option String
  message : String
deriving DecidableEq, Repr

/-- The `ProxyState`: the runtime-handle slot, the snapshot, and the request
counter. -/
structure ProxyState where
  runtime : Bool
  snapshot : ProxySnapshot
  total_requests : Nat
deriving DecidableEq, Repr

/-- The `ProxyStatus`, as serialized for the frontend. -/
structure ProxyStatus where
  running : Bool
  listen_host : Option Str
  listen_port : Option Nat
  route_count : Nat
  total_requests : Nat
  started_at : Option Nat
  last_error : Option String
  message : String
deriving DecidableEq, Repr

/-- The `ProxyState::status`: snapshot fields plus the atomic counter. -/
def ProxyState.status (s : ProxyState) : ProxyStatus :=
  { running := s.snapshot.running, listen_host := s.snapshot.listen_host,
    listen_port := s.snapshot.listen_port,
    route_count := s.snapshot.route_count,
    total_requests := s.total_requests,
    started_at := s.snapshot.started_at,
    last_error := s.snapshot.last_error, message := s.snapshot.message }

/-- The `ProxyStartRequest`. -/
structure ProxyStartRequest where
  listen_host : Str
  listen_port : Nat
  routes : List ProxyRouteInput

/-- The `proxy_start`: validate, build routes, check not running, bind, reset
the counter, build clients, spawn, register the runtime handle, update the
snapshot, and return the fresh status. -/
def proxy_start (state : ProxyState) (config : ProxyStartRequest) (now : Nat)
    (bindOk : Bool) (clientsOk : Bool) : Except String ProxyStatus × ProxyState :=
  let lh := trim config.listen_host
  if lh = [] then (.error "监听地址不能为空", state)
  else if config.listen_port = 0 then (.error "监听端口非法", state)
  else
    match build_routes config.routes with
    | .error e => (.error e, state)
    | .ok routes =>
      if routes = [] then (.error "至少需要一条启用的路由规则", state)
      else if state.runtime then (.error "代理服务已经在运行，请先停止再启动", state)
      else if ¬bindOk then (.error "监听失败", state)
      else
        let state1 := { state with total_requests := 0 }
        if ¬clientsOk then (.error "TLS 加密提供方初始化失败", state1)
        else
          -- spawn the acceptor; re-check under the runtime mutex: in the
          -- sequential model no other start raced, so register and proceed
          let state2 := { state1 with runtime := true }
          let state3 := { state2 with snapshot :=
            { running := true, listen_host := some lh,
              listen_port := some config.listen_port,
              route_count := routes.length, started_at := some now,
              last_error := none,
              message := "代理服务运行中，共 " ++ Nat.repr routes.length
                ++ " 条路由" } }
          (.ok state3.status, state3)

/-- The `proxy_stop`: take the runtime handle (stop + join are external),
then reset the snapshot; `last_error` is left as is. -/
def proxy_stop (state : ProxyState) : Except String ProxyStatus × ProxyState :=
  let state1 := { state with runtime := false }
  let state2 := { state1 with snapshot :=
    { running := false, listen_host := none, listen_port := none,
      started_at := none, route_count := 0,
      last_error := state1.snapshot.last_error,
      message := "代理服务已停止" } }
  (.ok state2.status, state2)

theorem buildRoutesCore_length :
    ∀ (l : List ProxyRouteInput) (rs : List ProxyRoute),
      buildRoutesCore l = .ok rs → rs.length = l.length := by
  intro l
  induction l with
  | nil =>
    intro rs h
    injection h with h
    subst h
    rfl
  | cons item rest ih =>
    intro rs h
    rw [buildRoutesCore] at h
    cases hp : parse_target item.target with
    | error e =>
      rw [hp] at h
      cases h
    | ok t =>
      obtain ⟨scheme, thost, tport⟩ := t
      rw [hp] at h
      cases hc : buildRoutesCore rest with
      | error e =>
        simp only [hc] at h
        cases h
      | ok routes =>
        simp only [hc, Except.ok.injEq] at h
        subst h
        simp [ih routes hc]

theorem build_routes_length (inputs : List ProxyRouteInput)
    (rs : List ProxyRoute) (h : build_routes inputs = .ok rs) :
    rs.length = (inputs.filter (fun i => i.enabled)).length := by
  unfold build_routes at h
  cases hc : buildRoutesCore (inputs.filter (fun i => i.enabled)) with
  | error e =>
    rw [hc] at h
    cases h
  | ok routes =>
    rw [hc] at h
    injection h with h
    subst h
    rw [List.length_insertionSort]
    exact buildRoutesCore_length _ _ hc

/-- Claim C8: After a successful `proxy_start` the snapshot (and the returned
status) has `running = true` and `route_count` equal to the number of
enabled routes of the config; `proxy_stop` always leaves a snapshot with
`running = false`, `listen_host`, `listen_port` and `started_at` cleared to
`none`, and `route_count = 0`. -/
theorem proxy_start_stop_snapshot (state : ProxyState)
    (config : ProxyStartRequest) (now : Nat) (bindOk clientsOk : Bool)
    (st : ProxyStatus) (state' : ProxyState)
    (h : proxy_start state config now bindOk clientsOk = (.ok st, state')) :
    (st.running = true ∧ state'.snapshot.running = true ∧
      st.route_count = (config.routes.filter (fun i => i.enabled)).length ∧
      state'.snapshot.route_count =
        (config.routes.filter (fun i => i.enabled)).length) ∧
    (∀ s : ProxyState,
      (proxy_stop s).2.snapshot.running = false ∧
      (proxy_stop s).2.snapshot.listen_host = none ∧
      (proxy_stop s).2.snapshot.listen_port = none ∧
      (proxy_stop s).2.snapshot.started_at = none ∧
      (proxy_stop s).2.snapshot.route_count = 0 ∧
      ((proxy_stop s).1.map ProxyStatus.running = .ok false)) := by
  constructor
  · unfold proxy_start at h
    by_cases h1 : trim config.listen_host = []
    · rw [if_pos h1] at h
      cases h
    · rw [if_neg h1] at h
      by_cases h2 : config.listen_port = 0
      · rw [if_pos h2] at h
        cases h
      · rw [if_neg h2] at h
        cases hbr : build_routes config.routes with
        | error e =>
          rw [hbr] at h
          cases h
        | ok routes =>
          simp only [hbr] at h
          by_cases h3 : routes = []
          · rw [if_pos h3] at h
            cases h
          · rw [if_neg h3] at h
            by_cases h4 : state.runtime
            · rw [if_pos h4] at h
              cases h
            · rw [if_neg h4] at h
              by_cases h5 : ¬bindOk
              · rw [if_pos h5] at h
                cases h
              · rw [if_neg h5] at h
                by_cases h6 : ¬clientsOk
                · rw [if_pos h6] at h
                  cases h
                · rw [if_neg h6] at h
                  have hlen := build_routes_length config.routes routes hbr
                  injection h with hst hstate
                  injection hst with hst
                  subst hst
                  subst hstate
                  exact ⟨rfl, rfl, hlen, hlen⟩
  · intro s
    exact ⟨rfl, rfl, rfl, rfl, rfl, rfl⟩

/-- The idle state used by the C8 witness. -/
def stateC8 : ProxyState :=
  { runtime := false,
    snapshot :=
      { running := false, listen_host := none, listen_port := none,
        route_count := 0, started_at := none, last_error := none,
        message := "代理服务未启动" },
    total_requests := 7 }

/-- The start request used by the C8 witness (the two routes of
`routeInputsC3`, both enabled). -/
def configC8 : ProxyStartRequest :=
  { listen_host := cs "127.0.0.1", listen_port := 18080,
    routes := routeInputsC3 }

/-- The state `proxy_start stateC8 configC8 1700000000 true true` produces. -/
def stateAfterC8 : ProxyState :=
  { runtime := true,
    snapshot :=
      { running := true, listen_host := some (cs "127.0.0.1"),
        listen_port := some 18080, route_count := 2,
        started_at := some 1700000000, last_error := none,
        message := "代理服务运行中，共 " ++ Nat.repr 2 ++ " 条路由" },
    total_requests := 0 }

/-- Witness for C8: the concrete start above succeeds with two routes. -/
theorem proxy_start_stop_snapshot_witness :
    (stateAfterC8.status.running = true ∧
      stateAfterC8.snapshot.running = true ∧
      stateAfterC8.status.route_count =
        (configC8.routes.filter (fun i => i.enabled)).length ∧
      stateAfterC8.snapshot.route_count =
        (configC8.routes.filter (fun i => i.enabled)).length) ∧
    (∀ s : ProxyState,
      (proxy_stop s).2.snapshot.running = false ∧
      (proxy_stop s).2.snapshot.listen_host = none ∧
      (proxy_stop s).2.snapshot.listen_port = none ∧
      (proxy_stop s).2.snapshot.started_at = none ∧
      (proxy_stop s).2.snapshot.route_count = 0 ∧
      ((proxy_stop s).1.map ProxyStatus.running = .ok false)) :=
  proxy_start_stop_snapshot stateC8 configC8 1700000000 true true
    stateAfterC8.status stateAfterC8 (by rfl)

end Krate
